import Mathlib

/-!
# Verification of the 65816 decode-and-execute core (src/cpu/src/instructions.rs)

Shallow embedding of the fetch/decode/dispatch engine and its addressing-mode
resolvers. Machine integers are modelled as `Nat` with explicit `% 2^w` where
the Rust types force truncation; `&mut CPU` becomes explicit state passing;
the `unimplemented!()` panic on an unbound opcode becomes an `Option` result.

The modules `cpu`, `bitwidth` and `mapper` that `instructions.rs` imports are
not part of the sources at hand; their pieces (the register file, the flag
constants, the width-generic `CPU::read`/`CPU::write`, and the `BitWidth`
capability) are modelled from the specification, and each such definition is
marked `Modelled from the spec:` in its doc comment.
-/

/-- Modelled from the spec: the register file of the missing `cpu` module —
program bank (8-bit), program counter (16-bit), data bank (8-bit),
accumulator (16-bit storage cell), processor flags (a bit set). -/
structure Registers where
  pb : Nat
  pc : Nat
  db : Nat
  a : Nat
  flags : Nat

/-- Modelled from the spec: the CPU of the missing `cpu` module. The external
memory interface (`Mapper`) is a function from (bank, offset) to a byte; the
write side of the interface is observed as a log of the write calls issued,
in order, each as (bank, offset, value). -/
structure CPU where
  registers : Registers
  mem : Nat → Nat → Nat
  writes : List (Nat × Nat × Nat)

/-- Modelled from the spec: byte-level read of the memory interface,
`read(bank: u8, offset: u16) -> u8`; the `% 256` records that the mapper
returns a `u8`. -/
def CPU.read (cpu : CPU) (bank offset : Nat) : Nat :=
  cpu.mem bank offset % 256

/-- Modelled from the spec: the 16-bit instantiation of the width-generic
`CPU::read` of the missing `cpu` module — two sequential byte reads at
(offset, offset+1) combined little-endian, the offset wrapping inside the
bank (the spec leaves the wrap implementation-defined; it is taken modulo
2^16 here). -/
def CPU.read16 (cpu : CPU) (bank offset : Nat) : Nat :=
  cpu.read bank offset ||| (cpu.read bank ((offset + 1) % 65536) <<< 8)

/-- Modelled from the spec: byte-level write of the memory interface,
`write(bank: u8, offset: u16, value: u8)`, observed by appending the call to
the write log; the `%` record the interface's integer types. -/
def CPU.write (cpu : CPU) (bank offset value : Nat) : CPU :=
  { cpu with writes := cpu.writes ++ [(bank % 256, offset % 65536, value % 256)] }

/-- Modelled from the spec: the 16-bit instantiation of the width-generic
`CPU::write` — two sequential byte writes (offset: low byte, offset+1: high
byte), the offset wrapping inside the bank modulo 2^16. -/
def CPU.write16 (cpu : CPU) (bank offset value : Nat) : CPU :=
  (cpu.write bank offset (value % 256)).write bank ((offset + 1) % 65536) (value / 256)

/-- Modelled from the spec: the `BitWidth` capability of the missing
`bitwidth` module — how to extract, overwrite and default-initialize a
register value at one width, plus the width's instantiation of the generic
memory read/write used by `cpu.read`/`cpu.write` in `instructions.rs`. -/
structure BitWidth where
  get : Nat → Nat
  set : Nat → Nat → Nat
  default : Nat
  readMem : CPU → Nat → Nat → Nat
  writeMem : CPU → Nat → Nat → Nat → CPU

/-- Modelled from the spec: the 8-bit instantiation of `BitWidth` —
an 8-bit write overwrites only the low byte, preserving the untouched high
byte; the default value is zero; memory access is a single byte access. -/
def u8 : BitWidth where
  get := fun a => a % 256
  set := fun a v => a / 256 * 256 + v % 256
  default := 0
  readMem := CPU.read
  writeMem := CPU.write

/-- Modelled from the spec: the 16-bit instantiation of `BitWidth` —
a 16-bit write overwrites the whole 16-bit cell; the default value is zero;
memory access is the two-byte little-endian access. -/
def u16 : BitWidth where
  get := fun a => a % 65536
  set := fun _ v => v % 65536
  default := 0
  readMem := CPU.read16
  writeMem := CPU.write16

/-- Modelled from the spec: the interrupt-disable flag bit of the missing
`cpu` module. The spec fixes only that the flags are a bit set containing at
least interrupt-disable and width-select as distinct members; bit 2 is
chosen for interrupt-disable. -/
def FLAG_NO_IRQ : Nat := 4

/-- Modelled from the spec: the accumulator-width-select flag bit of the
missing `cpu` module; bit 5 is chosen, distinct from `FLAG_NO_IRQ`. -/
def FLAG_A16 : Nat := 32

/-- Modelled from the spec: bit-set membership test of the `Flags` type
(`flags.contains(flag)`): every bit of `flag` is present in `flags`. -/
def Flags.contains (flags flag : Nat) : Bool :=
  flags &&& flag == flag

/-- A width-specific continuation of `instructions.rs`: in Rust,
`FnOnce(&mut CPU<M>, u8)` or `FnOnce(&mut CPU<M>, u16)`, state-passed. -/
abbrev ContFn := CPU → Nat → CPU

/-- `fetch` of `instructions.rs`: read one byte at (program bank, program
counter) and advance the program counter with `wrapping_add(1)` on `u16`. -/
def fetch (cpu : CPU) : Nat × CPU :=
  let byte := cpu.read cpu.registers.pb cpu.registers.pc
  (byte,
   { cpu with registers := { cpu.registers with pc := (cpu.registers.pc + 1) % 65536 } })

/-- `set_flag` of `instructions.rs`: `cpu.registers.flags |= flags`. -/
def set_flag (cpu : CPU) (flags : Nat) : CPU :=
  { cpu with registers := { cpu.registers with flags := cpu.registers.flags ||| flags } }

/-- `absolute_address` of `instructions.rs`: fetch two bytes, combine
little-endian into the address, then invoke `g` with the address when in
16-bit mode, else `f`. -/
def absolute_address (cpu : CPU) (sixteen_bits : Bool) (f g : ContFn) : CPU :=
  let p1 := fetch cpu
  let a := p1.1
  let p2 := fetch p1.2
  let b := p2.1
  let address := a ||| (b <<< 8)
  if sixteen_bits then g p2.2 address else f p2.2 address

/-- `absolute` of `instructions.rs`: delegates to `absolute_address` with two
closures that dereference the address in the data bank. In the Rust source
the first closure (the one `absolute_address` runs when NOT in 16-bit mode)
calls the 16-bit continuation `g`, which forces its `cpu.read` to be the
16-bit instantiation by type inference, and the second closure (run in
16-bit mode) calls the 8-bit continuation `f`, forcing an 8-bit read; the
embedding reproduces this transposition exactly as written. -/
def absolute (cpu : CPU) (sixteen_bits : Bool) (f g : ContFn) : CPU :=
  absolute_address cpu sixteen_bits
    (fun cpu address =>
      let value := CPU.read16 cpu cpu.registers.db address
      g cpu value)
    (fun cpu address =>
      let value := CPU.read cpu cpu.registers.db address
      f cpu value)

/-- `immediate` of `instructions.rs`: fetch one byte; in 16-bit mode fetch a
second byte, combine little-endian and invoke `g`, else invoke `f` with the
single byte. -/
def immediate (cpu : CPU) (sixteen_bits : Bool) (f g : ContFn) : CPU :=
  let p1 := fetch cpu
  let a := p1.1
  if sixteen_bits then
    let p2 := fetch p1.2
    let b := p2.1 <<< 8
    g p2.2 (a ||| b)
  else
    f p1.2 a

/-- `a16` of `instructions.rs`, the mode-dispatch gate: read the width-select
flag once and forward it, with both continuations, into the resolver. -/
def a16 (cpu : CPU) (f : CPU → Bool → ContFn → ContFn → CPU) (g h : ContFn) : CPU :=
  let sixteen_bits := Flags.contains cpu.registers.flags FLAG_A16
  f cpu sixteen_bits g h

/-- `lda` of `instructions.rs`: `T::set(&mut cpu.registers.a, value)`,
generic over the width capability. -/
def lda (w : BitWidth) (cpu : CPU) (value : Nat) : CPU :=
  { cpu with registers := { cpu.registers with a := w.set cpu.registers.a value } }

/-- `stz` of `instructions.rs`: write the width's default (zero) value to
(data bank, address), generic over the width capability. -/
def stz (w : BitWidth) (cpu : CPU) (address : Nat) : CPU :=
  let db := cpu.registers.db
  w.writeMem cpu db address w.default

/-- `run_instruction` of `instructions.rs`: fetch the opcode byte and
dispatch. The Rust `match` over disjoint opcode literals is rendered as a
chain of equality tests; the `unimplemented!()` panic on an unbound opcode
is rendered as `none`, every bound opcode as `some` of the resulting state. -/
def run_instruction (cpu : CPU) : Option CPU :=
  let p := fetch cpu
  let op := p.1
  let cpu := p.2
  if op = 0xA9 then some (a16 cpu immediate (lda u8) (lda u16))
  else if op = 0xAD then some (a16 cpu absolute (lda u8) (lda u16))
  else if op = 0x78 then some (set_flag cpu FLAG_NO_IRQ)
  else if op = 0x9C then some (a16 cpu absolute_address (stz u8) (stz u16))
  else none

/-! ## Concrete machine states used to evaluate the development -/

/-- A machine whose whole address space reads as `0xFF`: the next opcode is
unbound. -/
def cpuFF : CPU :=
  { registers := ⟨0, 0, 0, 0, 0⟩, mem := fun _ _ => 0xFF, writes := [] }

/-- A machine with the program counter at the top of the bank. -/
def cpuFFFF : CPU :=
  { registers := { pb := 0x12, pc := 0xFFFF, db := 0, a := 0, flags := 0 },
    mem := fun _ _ => 0, writes := [] }

/-- A machine about to run `LDA absolute` (opcode `0xAD`, operand `0x2000`)
in 16-bit mode, with memory holding `0x42` at (0x7E, 0x2000) and `0x99` at
(0x7E, 0x2001), and the accumulator at `0xABCD`. -/
def ldaAbsCpu : CPU :=
  { registers := { pb := 0, pc := 0, db := 0x7E, a := 0xABCD, flags := FLAG_A16 },
    mem := fun bank offset =>
      if bank = 0 ∧ offset = 0 then 0xAD
      else if bank = 0 ∧ offset = 1 then 0x00
      else if bank = 0 ∧ offset = 2 then 0x20
      else if bank = 0x7E ∧ offset = 0x2000 then 0x42
      else if bank = 0x7E ∧ offset = 0x2001 then 0x99
      else 0,
    writes := [] }

/-- A machine about to run `LDA immediate` (opcode `0xA9`, operand `0x42`)
in 8-bit mode. -/
def ldaImm8Cpu : CPU :=
  { registers := ⟨0, 0, 0, 0xABCD, 0⟩,
    mem := fun bank offset =>
      if bank = 0 ∧ offset = 0 then 0xA9
      else if bank = 0 ∧ offset = 1 then 0x42
      else 0,
    writes := [] }

/-- A machine about to run `LDA immediate` (opcode `0xA9`, operands
`0x34, 0x12`) in 16-bit mode. -/
def ldaImm16Cpu : CPU :=
  { registers := ⟨0, 0, 0, 0xABCD, FLAG_A16⟩,
    mem := fun bank offset =>
      if bank = 0 ∧ offset = 0 then 0xA9
      else if bank = 0 ∧ offset = 1 then 0x34
      else if bank = 0 ∧ offset = 2 then 0x12
      else 0,
    writes := [] }

/-- A machine about to run `STZ absolute` (opcode `0x9C`, operand `0x2000`)
in 8-bit mode with data bank `0x7E`. -/
def stzCpu : CPU :=
  { registers := { pb := 0, pc := 0, db := 0x7E, a := 0x1111, flags := 0 },
    mem := fun bank offset =>
      if bank = 0 ∧ offset = 0 then 0x9C
      else if bank = 0 ∧ offset = 1 then 0x00
      else if bank = 0 ∧ offset = 2 then 0x20
      else 0,
    writes := [] }

/-- A machine about to run `SEI` (opcode `0x78`). -/
def seiCpu : CPU :=
  { registers := ⟨5, 10, 7, 9, 1⟩, mem := fun _ _ => 0x78, writes := [] }

/-! ## Claims -/

/-- C6: for every machine state, fetching one instruction byte when the
program counter is `0xFFFF` leaves the program counter at `0x0000` and the
program bank unchanged (`pc.wrapping_add(1)` wraps modulo 2^16 and touches
nothing else). -/
theorem fetch_pc_wraparound (cpu : CPU) (h : cpu.registers.pc = 0xFFFF) :
    (fetch cpu).2.registers.pc = 0 ∧ (fetch cpu).2.registers.pb = cpu.registers.pb := by
  refine ⟨?_, rfl⟩
  simp [fetch, h]

/-- Witness for C6 at a concrete state. -/
theorem fetch_pc_wraparound_witness :
    (fetch cpuFFFF).2.registers.pc = 0 ∧ (fetch cpuFFFF).2.registers.pb = cpuFFFF.registers.pb :=
  fetch_pc_wraparound cpuFFFF rfl

/-- C7: whenever the Absolute (`absolute_address`) or Immediate resolver runs
in 16-bit mode, the resolved 16-bit quantity handed to the 16-bit
continuation is `low ||| (high <<< 8)`, where `low` is the byte read at the
program counter (fetched first) and `high` the byte read at the following
program-counter value — little-endian reconstruction. -/
theorem sixteen_bit_resolution_little_endian (cpu : CPU) (f g : ContFn) :
    (absolute_address cpu true f g
      = g (fetch (fetch cpu).2).2
          (CPU.read cpu cpu.registers.pb cpu.registers.pc |||
           (CPU.read cpu cpu.registers.pb ((cpu.registers.pc + 1) % 65536) <<< 8))) ∧
    (immediate cpu true f g
      = g (fetch (fetch cpu).2).2
          (CPU.read cpu cpu.registers.pb cpu.registers.pc |||
           (CPU.read cpu cpu.registers.pb ((cpu.registers.pc + 1) % 65536) <<< 8))) :=
  ⟨rfl, rfl⟩

/-- C9: the mode-dispatch gate `a16` is a pure forwarder: its result is the
resolver applied to the untouched machine state, the boolean obtained from
the single read of the width-select flag, and both width-specific
continuations; that boolean is `true` exactly when the `FLAG_A16` bits are
all present in the flag register, so no other mutation happens beyond what
the resolver performs. -/
theorem a16_gate_pure_forwarding (cpu : CPU)
    (f : CPU → Bool → ContFn → ContFn → CPU) (g h : ContFn) :
    a16 cpu f g h = f cpu (Flags.contains cpu.registers.flags FLAG_A16) g h ∧
    (Flags.contains cpu.registers.flags FLAG_A16 = true ↔
      cpu.registers.flags &&& FLAG_A16 = FLAG_A16) := by
  refine ⟨rfl, ?_⟩
  simp [Flags.contains]

/-- C2: each resolver (`absolute_address`, `immediate`, `absolute`), for
every state, every width mode and every pair of continuations, produces
exactly one application of exactly one of the two continuations — the
16-bit-mode branch is a single application of one continuation and the
8-bit-mode branch a single application of the other, so never zero and
never both fire. (For `absolute` the branch taken in 16-bit mode applies
`f`, the 8-bit continuation, and conversely — the source transposes them —
but still exactly one of the two.) -/
theorem resolvers_invoke_exactly_one_continuation (cpu : CPU) (b : Bool) (f g : ContFn) :
    (absolute_address cpu b f g =
      if b then
        g (fetch (fetch cpu).2).2 ((fetch cpu).1 ||| ((fetch (fetch cpu).2).1 <<< 8))
      else
        f (fetch (fetch cpu).2).2 ((fetch cpu).1 ||| ((fetch (fetch cpu).2).1 <<< 8))) ∧
    (immediate cpu b f g =
      if b then
        g (fetch (fetch cpu).2).2 ((fetch cpu).1 ||| ((fetch (fetch cpu).2).1 <<< 8))
      else
        f (fetch cpu).2 (fetch cpu).1) ∧
    (absolute cpu b f g =
      if b then
        f (fetch (fetch cpu).2).2
          (CPU.read (fetch (fetch cpu).2).2 (fetch (fetch cpu).2).2.registers.db
            ((fetch cpu).1 ||| ((fetch (fetch cpu).2).1 <<< 8)))
      else
        g (fetch (fetch cpu).2).2
          (CPU.read16 (fetch (fetch cpu).2).2 (fetch (fetch cpu).2).2.registers.db
            ((fetch cpu).1 ||| ((fetch (fetch cpu).2).1 <<< 8)))) := by
  refine ⟨?_, ?_, ?_⟩ <;> cases b <;> rfl

/-- C1 (failing input): on `ldaAbsCpu` the width-select flag is set (16-bit
mode) and the next instruction is `LDA absolute` with operand `0x2000`, yet
`run_instruction` leaves the accumulator at `0xAB42`: the Absolute resolver
performed a single 8-bit read (`0x42` at (0x7E, 0x2000)) and invoked the
8-bit continuation, which preserved the accumulator's high byte. The
continuation matching the mode would have produced `0x9942`, the
little-endian 16-bit read — the claim fails because `absolute` passes its
dereferencing closures to `absolute_address` transposed. -/
theorem absolute_sixteen_bit_mode_runs_eight_bit_continuation :
    Flags.contains ldaAbsCpu.registers.flags FLAG_A16 = true ∧
    CPU.read16 ldaAbsCpu ldaAbsCpu.registers.db 0x2000 = 0x9942 ∧
    Option.map (fun c => c.registers.a) (run_instruction ldaAbsCpu) = some 0xAB42 := by
  refine ⟨rfl, rfl, rfl⟩

/-- C3: fetching an opcode byte bound to no handler makes `run_instruction`
signal the decode failure (`unimplemented!()`, modelled as `none`): no
successor state is produced at all, so no register mutation is observable
and decoding never silently advances to the next opcode. -/
theorem run_instruction_unbound_opcode_fails (cpu : CPU)
    (h1 : (fetch cpu).1 ≠ 0xA9) (h2 : (fetch cpu).1 ≠ 0xAD)
    (h3 : (fetch cpu).1 ≠ 0x78) (h4 : (fetch cpu).1 ≠ 0x9C) :
    run_instruction cpu = none := by
  simp [run_instruction, h1, h2, h3, h4]

/-- Witness for C3: the unbound opcode byte `0xFF`. -/
theorem run_instruction_unbound_opcode_fails_witness :
    (fetch cpuFF).1 = 0xFF ∧ run_instruction cpuFF = none :=
  ⟨rfl, run_instruction_unbound_opcode_fails cpuFF (by decide) (by decide)
    (by decide) (by decide)⟩

/-- C4: opcode `0xA9` (`LDA immediate`). With the width flag clear and the
next instruction byte `0x42`, the run succeeds and the accumulator's low
byte becomes `0x42`; with the width flag set and the next two bytes
`0x34, 0x12`, the run succeeds and the accumulator becomes `0x1234`. -/
theorem run_lda_immediate_scenarios (cpu : CPU) :
    (Flags.contains cpu.registers.flags FLAG_A16 = false →
     cpu.mem cpu.registers.pb cpu.registers.pc = 0xA9 →
     cpu.mem cpu.registers.pb ((cpu.registers.pc + 1) % 65536) = 0x42 →
     Option.map (fun c => c.registers.a % 256) (run_instruction cpu) = some 0x42) ∧
    (Flags.contains cpu.registers.flags FLAG_A16 = true →
     cpu.mem cpu.registers.pb cpu.registers.pc = 0xA9 →
     cpu.mem cpu.registers.pb ((cpu.registers.pc + 1) % 65536) = 0x34 →
     cpu.mem cpu.registers.pb ((cpu.registers.pc + 2) % 65536) = 0x12 →
     Option.map (fun c => c.registers.a) (run_instruction cpu) = some 0x1234) := by
  constructor
  · intro hw hop h1
    simp only [run_instruction, fetch, CPU.read, a16, immediate, lda, u8, hop, hw, h1,
      Nat.reduceMod, Nat.reduceEqDiff, reduceIte, if_false, if_true, Bool.false_eq_true,
      Option.map_some', Option.some.injEq]
    omega
  · intro hw hop h1 h2
    have h2' : cpu.mem cpu.registers.pb ((cpu.registers.pc + 1 + 1) % 65536) = 0x12 := by
      have e : cpu.registers.pc + 1 + 1 = cpu.registers.pc + 2 := by omega
      rw [e]
      exact h2
    simp only [run_instruction, fetch, CPU.read, a16, immediate, lda, u16, hop, hw, h1,
      Nat.mod_add_mod, h2', Nat.reduceMod, Nat.reduceEqDiff, reduceIte, if_false, if_true,
      Option.map_some', Option.some.injEq]
    decide

/-- Witnesses for C4: both scenarios at concrete machines. -/
theorem run_lda_immediate_scenarios_witness :
    Option.map (fun c => c.registers.a % 256) (run_instruction ldaImm8Cpu) = some 0x42 ∧
    Option.map (fun c => c.registers.a) (run_instruction ldaImm16Cpu) = some 0x1234 :=
  ⟨(run_lda_immediate_scenarios ldaImm8Cpu).1 (by decide) (by decide) (by decide),
   (run_lda_immediate_scenarios ldaImm16Cpu).2 (by decide) (by decide) (by decide)
     (by decide)⟩

/-- C5: opcode `0x9C` (`STZ absolute`) with the width flag clear, operand
bytes `0x00` then `0x20` and data bank `0x7E` issues exactly one call to the
memory interface's write — appending exactly `(0x7E, 0x2000, 0x00)` to the
write log — and leaves the accumulator unchanged (the handler never touches
it). -/
theorem run_stz_absolute_scenario (cpu : CPU)
    (hw : Flags.contains cpu.registers.flags FLAG_A16 = false)
    (hop : cpu.mem cpu.registers.pb cpu.registers.pc = 0x9C)
    (hlo : cpu.mem cpu.registers.pb ((cpu.registers.pc + 1) % 65536) = 0x00)
    (hhi : cpu.mem cpu.registers.pb ((cpu.registers.pc + 2) % 65536) = 0x20)
    (hdb : cpu.registers.db = 0x7E) :
    Option.map (fun c => (c.writes, c.registers.a)) (run_instruction cpu)
      = some (cpu.writes ++ [(0x7E, 0x2000, 0x00)], cpu.registers.a) := by
  have hhi' : cpu.mem cpu.registers.pb ((cpu.registers.pc + 1 + 1) % 65536) = 0x20 := by
    have e : cpu.registers.pc + 1 + 1 = cpu.registers.pc + 2 := by omega
    rw [e]
    exact hhi
  simp only [run_instruction, fetch, CPU.read, a16, absolute_address, stz, u8, CPU.write,
    hw, hop, hlo, Nat.mod_add_mod, hhi', hdb, Nat.reduceMod, Nat.reduceEqDiff, reduceIte,
    if_false, if_true, Bool.false_eq_true, Option.map_some', Option.some.injEq,
    Prod.mk.injEq, List.append_right_inj]
  exact ⟨by decide, trivial⟩

/-- Witness for C5 at a concrete machine. -/
theorem run_stz_absolute_scenario_witness :
    Option.map (fun c => (c.writes, c.registers.a)) (run_instruction stzCpu)
      = some (stzCpu.writes ++ [(0x7E, 0x2000, 0x00)], stzCpu.registers.a) :=
  run_stz_absolute_scenario stzCpu (by decide) (by decide) (by decide) (by decide)
    (by decide)

/-- C8: opcode `0x78` (`SEI`). From any state with `0x78` as the next
instruction byte, the run succeeds; the program counter advances by exactly
one (modulo 2^16), no further byte is consumed and no other register, the
write log included, changes: the flag register becomes
`flags ||| FLAG_NO_IRQ`, in which the interrupt-disable flag is set while
every bit other than the interrupt-disable bit (bit 2) keeps its value. -/
theorem run_sei_scenario (cpu : CPU)
    (hop : cpu.mem cpu.registers.pb cpu.registers.pc = 0x78) :
    Option.map
      (fun c => (c.registers.pc, c.registers.pb, c.registers.db, c.registers.a,
                 c.registers.flags, c.writes))
      (run_instruction cpu)
      = some ((cpu.registers.pc + 1) % 65536, cpu.registers.pb, cpu.registers.db,
              cpu.registers.a, cpu.registers.flags ||| FLAG_NO_IRQ, cpu.writes) ∧
    Flags.contains (cpu.registers.flags ||| FLAG_NO_IRQ) FLAG_NO_IRQ = true ∧
    (∀ i : Nat, i ≠ 2 →
      (cpu.registers.flags ||| FLAG_NO_IRQ).testBit i = cpu.registers.flags.testBit i) := by
  refine ⟨?_, ?_, ?_⟩
  · simp only [run_instruction, fetch, CPU.read, set_flag, hop, Nat.reduceMod,
      Nat.reduceEqDiff, reduceIte, if_false, if_true, Option.map_some', Option.some.injEq,
      Prod.mk.injEq]
  · have e : (cpu.registers.flags ||| FLAG_NO_IRQ) &&& FLAG_NO_IRQ = FLAG_NO_IRQ := by
      apply Nat.eq_of_testBit_eq
      intro i
      have h4 : FLAG_NO_IRQ = 2 ^ 2 := rfl
      rcases Decidable.em (i = 2) with h | h
      · subst h
        have hb : Nat.testBit 4 2 = true := by decide
        simp [h4, Nat.testBit_or, hb]
      · simp [h4, Nat.testBit_or, Nat.testBit_two_pow_of_ne (fun hh => h hh.symm)]
    simp [Flags.contains, e]
  · intro i hi
    have h4 : FLAG_NO_IRQ = 2 ^ 2 := rfl
    simp [h4, Nat.testBit_or, Nat.testBit_two_pow_of_ne (fun hh => hi hh.symm)]

/-- Witness for C8 at a concrete machine. -/
theorem run_sei_scenario_witness :
    Option.map
      (fun c => (c.registers.pc, c.registers.pb, c.registers.db, c.registers.a,
                 c.registers.flags, c.writes))
      (run_instruction seiCpu)
      = some ((seiCpu.registers.pc + 1) % 65536, seiCpu.registers.pb,
              seiCpu.registers.db, seiCpu.registers.a,
              seiCpu.registers.flags ||| FLAG_NO_IRQ, seiCpu.writes) ∧
    Flags.contains (seiCpu.registers.flags ||| FLAG_NO_IRQ) FLAG_NO_IRQ = true ∧
    (∀ i : Nat, i ≠ 2 →
      (seiCpu.registers.flags ||| FLAG_NO_IRQ).testBit i
        = seiCpu.registers.flags.testBit i) :=
  run_sei_scenario seiCpu (by decide)


/-- C10: for every starting state, whenever `run_instruction` completes (it
does exactly on the implemented opcodes `0xA9`, `0xAD`, `0x78`, `0x9C`), the
program bank and data bank registers of the resulting state equal those of
the starting state: only the program counter, accumulator, flags and the
external memory can be affected. -/
theorem run_instruction_preserves_banks (cpu cpu' : CPU)
    (h : run_instruction cpu = some cpu') :
    cpu'.registers.pb = cpu.registers.pb ∧ cpu'.registers.db = cpu.registers.db := by
  simp only [run_instruction] at h
  split at h
  · rw [Option.some.injEq] at h
    subst h
    cases hb : Flags.contains cpu.registers.flags FLAG_A16 <;>
      simp only [a16, immediate, lda, fetch, u8, u16, hb, Bool.false_eq_true, if_false,
        if_true, reduceIte] <;>
      exact ⟨trivial, trivial⟩
  · split at h
    · rw [Option.some.injEq] at h
      subst h
      cases hb : Flags.contains cpu.registers.flags FLAG_A16 <;>
        simp only [a16, absolute, absolute_address, lda, fetch, CPU.read, CPU.read16, u8,
          u16, hb, Bool.false_eq_true, if_false, if_true, reduceIte] <;>
        exact ⟨trivial, trivial⟩
    · split at h
      · rw [Option.some.injEq] at h
        subst h
        exact ⟨rfl, rfl⟩
      · split at h
        · rw [Option.some.injEq] at h
          subst h
          cases hb : Flags.contains cpu.registers.flags FLAG_A16 <;>
            simp only [a16, absolute_address, stz, fetch, CPU.write, CPU.write16, u8, u16,
              hb, Bool.false_eq_true, if_false, if_true, reduceIte] <;>
            exact ⟨trivial, trivial⟩
        · exact absurd h (by simp)

/-- Witness for C10 at a concrete machine running `SEI`. -/
theorem run_instruction_preserves_banks_witness :
    ((run_instruction seiCpu).getD seiCpu).registers.pb = seiCpu.registers.pb ∧
    ((run_instruction seiCpu).getD seiCpu).registers.db = seiCpu.registers.db :=
  run_instruction_preserves_banks seiCpu ((run_instruction seiCpu).getD seiCpu) rfl
